import Mathlib

/-!
# Verification of the NMS.TXT game engine (src/js/game.js)

Shallow embedding of the browser game's core logic: response parsing,
state reduction, dice/skill mechanics and the per-turn driver
`processPlayerAction`.  Strings are modelled as `List Char` (the game is
ASCII-facing; JavaScript's Unicode whitespace/case classes are modelled on
their ASCII fragment).  JavaScript numbers holding integral game values are
modelled as `Int`; random draws and the oracle (AI) transport are
externalized as explicit parameters.
-/

set_option autoImplicit false
set_option maxRecDepth 10000

abbrev Str := List Char

/-- ASCII fragment of JavaScript's `\s` character class. -/
def jsIsSpace (c : Char) : Bool :=
  c = ' ' || c = '\t' || c = '\n' || c = '\r' || c = '\x0b' || c = '\x0c'

/-- JavaScript's `\w` character class: `[A-Za-z0-9_]`. -/
def jsIsWordChar (c : Char) : Bool :=
  c.isAlpha || c.isDigit || c = '_'

/-- `String.prototype.toLowerCase`, on its ASCII fragment. -/
def jsToLower (s : Str) : Str := s.map Char.toLower

/-- `String.prototype.trim`: drop leading and trailing whitespace. -/
def trimStr (s : Str) : Str :=
  ((s.dropWhile jsIsSpace).reverse.dropWhile jsIsSpace).reverse

/-- Drop trailing whitespace only (the `\s*$` tail of the option regexes). -/
def dropTrailingWs (s : Str) : Str :=
  (s.reverse.dropWhile jsIsSpace).reverse

/-- `haystack.includes(needle)` on `List Char`: some suffix of the haystack
starts with the needle. -/
def strIncludes (haystack needle : Str) : Bool :=
  haystack.tails.any (fun t => needle.isPrefixOf t)

-- ===== DICE & SKILL SYSTEM =====

/-- The four skill categories used by `detectSkillFromAction`. -/
inductive Skill where
  | combat
  | technology
  | survival
  | exploration
deriving DecidableEq, Repr

/-- `DIFFICULTY_DC` (game.js:1714): difficulty-class table. -/
def DIFFICULTY_DC : List (Str × Int) :=
  [("easy".data, 6), ("medium".data, 9), ("hard".data, 13), ("very hard".data, 17)]

/-- `DIFFICULTY_DC[difficulty.toLowerCase()] || 12` (game.js:2241): table
lookup on the lower-cased tier, defaulting to 12 for an unknown tier (every
table entry is non-zero, hence truthy). -/
def lookupDC (difficulty : Str) : Int :=
  (((DIFFICULTY_DC.find? (fun p => jsToLower difficulty = p.1)).map (fun p => p.2)).getD 12)

/-- Result record of `performSkillCheck` (game.js:2238). -/
structure SkillCheckResult where
  roll : Nat
  bonuses : Int
  total : Int
  dc : Int
  success : Bool
  criticalSuccess : Bool
  criticalFailure : Bool
  difficulty : Str
  skillUsed : Option Str
deriving DecidableEq, Repr

/-- `performSkillCheck(difficulty, bonuses, skillName)` (game.js:2238).
The d20 draw `rollDice(20)` is externalized as the `roll` argument. -/
def performSkillCheck (difficulty : Str) (bonuses : Int) (roll : Nat)
    (skillName : Option Str) : SkillCheckResult :=
  let total : Int := (roll : Int) + bonuses
  let dc := lookupDC difficulty
  { roll := roll
    bonuses := bonuses
    total := total
    dc := dc
    success := decide (total ≥ dc)
    criticalSuccess := decide (roll = 20)
    criticalFailure := decide (roll = 1)
    difficulty := difficulty
    skillUsed := skillName }

/-- Combat keyword list of `detectSkillFromAction` (game.js:2342). -/
def combatKeywords : List Str :=
  ["attack", "fight", "shoot", "defend", "weapon", "kill",
   "battle", "combat", "strike", "hit", "dodge", "block",
   "charge", "assault", "aggressive"].map String.data

/-- Technology keyword list (game.js:2349). -/
def technologyKeywords : List Str :=
  ["repair", "fix", "craft", "build", "upgrade", "modify",
   "engineer", "construct", "assemble", "calibrate", "system",
   "computer", "terminal", "code", "hack", "program", "wire",
   "circuit", "technology", "device", "tool"].map String.data

/-- Survival keyword list (game.js:2357). -/
def survivalKeywords : List Str :=
  ["gather", "collect", "harvest", "hunt", "forage", "scavenge",
   "water", "food", "shelter", "medicine", "heal", "survive",
   "resource", "toxin", "radiation", "temperature", "hazard",
   "environmental", "adapt"].map String.data

/-- Exploration keyword list (game.js:2364). -/
def explorationKeywords : List Str :=
  ["explore", "search", "investigate", "examine", "look",
   "scout", "survey", "navigate", "map", "discover", "find",
   "study", "analyze", "inspect", "observe", "wander", "trek",
   "journey", "travel", "climb", "descend", "venture"].map String.data

/-- Does the (already lower-cased) text contain any keyword of the list?
Models the per-category `for` loop of `detectSkillFromAction`, which
returns on the first `text.includes(keyword)`. -/
def textIncludesAny (text : Str) (keywords : List Str) : Bool :=
  keywords.any (fun k => strIncludes text k)

/-- `detectSkillFromAction(actionText)` (game.js:2336): lower-case the text,
scan the four keyword lists in precedence order, default to exploration. -/
def detectSkillFromAction (actionText : Str) : Skill :=
  let text := jsToLower actionText
  if textIncludesAny text combatKeywords then .combat
  else if textIncludesAny text technologyKeywords then .technology
  else if textIncludesAny text survivalKeywords then .survival
  else if textIncludesAny text explorationKeywords then .exploration
  else .exploration

/-- A `{ level, xp, points }` record of `gameState.skills` (game.js:1897). -/
structure SkillState where
  level : Int
  xp : Int
  points : Int
deriving DecidableEq, Repr

/-- `gameState.skills`: the four skill records always present in a game
state built by `createInitialGameState` (game.js:1896). -/
structure Skills where
  survival : SkillState
  technology : SkillState
  exploration : SkillState
  combat : SkillState
deriving DecidableEq, Repr

/-- `gameState.skills[skillName]` for the four valid names. -/
def Skills.get (sk : Skills) : Skill → SkillState
  | .combat => sk.combat
  | .technology => sk.technology
  | .survival => sk.survival
  | .exploration => sk.exploration

/-- Functional update of one skill record. -/
def Skills.set (sk : Skills) : Skill → SkillState → Skills
  | .combat, s => { sk with combat := s }
  | .technology, s => { sk with technology := s }
  | .survival, s => { sk with survival := s }
  | .exploration, s => { sk with exploration := s }

/-- The record returned by `awardSkillPoints` on success (game.js:2420). -/
structure AwardInfo where
  pointsEarned : Int
  newTotal : Int
  skillName : Skill
deriving DecidableEq, Repr

/-- `awardSkillPoints(skillName, diceRollResult)` (game.js:2402): on a
successful check add `max(1, total - dc)` to the skill's point balance and
report it; on failure return `null` and change nothing.  The
`!gameState.skills[skillName]` guard never fires here because the model's
`Skills` always carries the four records. -/
def awardSkillPoints (skills : Skills) (skillName : Skill)
    (diceRollResult : SkillCheckResult) : Skills × Option AwardInfo :=
  if !diceRollResult.success then (skills, none)
  else
    let skill := skills.get skillName
    let marginOfSuccess := diceRollResult.total - diceRollResult.dc
    let pointsEarned := max 1 marginOfSuccess
    let newPoints := skill.points + pointsEarned
    (skills.set skillName { skill with points := newPoints },
     some { pointsEarned := pointsEarned, newTotal := newPoints, skillName := skillName })

-- ===== RESPONSE PARSING: OPTION LINES =====

/-- One option entry `{ text, difficulty }` (game.js:2857). -/
structure GameOption where
  text : Str
  difficulty : Str
deriving DecidableEq, Repr

/-- Leading part `\d+\.` of the option-line regexes, optionally preceded by
`\s*`: strip the whitespace (when allowed), require one or more digits
followed by a literal dot, and return the remainder of the line. -/
def matchNumberDot (allowLeadingWs : Bool) (line : Str) : Option Str :=
  let l := if allowLeadingWs then line.dropWhile jsIsSpace else line
  let ds := l.takeWhile Char.isDigit
  if ds.isEmpty then none
  else
    match l.drop ds.length with
    | '.' :: rest => some rest
    | _ => none

/-- Split off the segment after the last occurrence of `ch`: returns
`(before, after)` with `before ++ [ch] ++ after = l` and `ch ∉ after`. -/
def splitAtLast (ch : Char) : Str → Option (Str × Str)
  | [] => none
  | c :: t =>
    match splitAtLast ch t with
    | some (pre, post) => some (c :: pre, post)
    | none => if c = ch then some ([], t) else none

/-- The difficulty group `\w+(?:\s+\w+)?`, matched against the whole
parenthetical interior: one word, or two words joined by whitespace. -/
def oneOrTwoWords (w : Str) : Bool :=
  let w1 := w.takeWhile jsIsWordChar
  if w1.isEmpty then false
  else
    let rest := w.drop w1.length
    if rest.isEmpty then true
    else
      let sp := rest.takeWhile jsIsSpace
      if sp.isEmpty then false
      else
        let rest2 := rest.drop sp.length
        let w2 := rest2.takeWhile jsIsWordChar
        !w2.isEmpty && (rest2.drop w2.length).isEmpty

/-- Tail `(.+?)\s*\((\w+(?:\s+\w+)?)\)\s*$` of the option regexes, applied to
the remainder `r` of a line after `\d+\.`.  Backtracking analysis: the `\)`
must be followed only by trailing whitespace, and the interior of the
parenthetical contains no parenthesis (it is words and spaces), so the
matched `(` is the last `(` of the line; the non-greedy `.+?` together with
the surrounding greedy `\s*` makes the first capture equal to the segment
between the dot and that `(` (which must be non-empty), with its boundary
whitespace stripped — the engine's capture followed by the caller's
`.trim()` is `trimStr` of that segment either way.  Returns
`(trimmed text capture, difficulty capture)`. -/
def matchWithDiffCore (r : Str) : Option (Str × Str) :=
  let r' := dropTrailingWs r
  if r'.getLast? = some ')' then
    match splitAtLast '(' r'.dropLast with
    | some (pre, interior) =>
      if oneOrTwoWords interior && !pre.isEmpty then
        some (trimStr pre, interior)
      else none
    | none => none
  else none

/-- `line.match(/^\d+\.\s*(.+?)\s*\((\w+(?:\s+\w+)?)\)\s*$/i)` used by
`parseOptions` (game.js:2857): no leading whitespace allowed. -/
def matchOptionLineStrict (line : Str) : Option (Str × Str) :=
  (matchNumberDot false line).bind matchWithDiffCore

/-- `parseOptions(optionsText)` (game.js:2851): split into lines, keep every
line matching the numbered-option pattern, pushing
`{ text: match[1].trim(), difficulty: match[2].trim() }`. -/
def parseOptions (optionsText : Str) : List GameOption :=
  (optionsText.splitOn '\n').filterMap (fun line =>
    (matchOptionLineStrict line).map (fun td => ⟨td.1, trimStr td.2⟩))

/-- `line.match(/^\s*(\d+)\.\s*(.+?)\s*\((\w+(?:\s+\w+)?)\)\s*$/i)` used by
the fallback parser (game.js:2876): leading whitespace allowed. -/
def matchOptionLineWithDiff (line : Str) : Option (Str × Str) :=
  (matchNumberDot true line).bind matchWithDiffCore

/-- `line.match(/^\s*(\d+)\.\s*(.+?)\s*$/i)` (game.js:2877): a numbered line
with any non-empty remainder; the capture, once the caller applies
`.trim()`, is the trimmed remainder (the non-greedy `.+?` between two greedy
`\s*` captures the remainder with boundary whitespace redistributed, which
`.trim()` collapses). -/
def matchOptionLineNoDiff (line : Str) : Option Str :=
  (matchNumberDot true line).bind (fun rest =>
    if rest.isEmpty then none else some (trimStr rest))

/-- Difficulty inference for fallback options without a parenthetical
(game.js:2890): keyword buckets on the lower-cased text, default Medium. -/
def inferDifficulty (actionText : Str) : Str :=
  let lowerText := jsToLower actionText
  if strIncludes lowerText "search".data || strIncludes lowerText "look".data
      || strIncludes lowerText "gather".data || strIncludes lowerText "collect".data then
    "Easy".data
  else if strIncludes lowerText "explore".data || strIncludes lowerText "investigate".data
      || strIncludes lowerText "examine".data then
    "Medium".data
  else if strIncludes lowerText "repair".data || strIncludes lowerText "climb".data
      || strIncludes lowerText "fight".data || strIncludes lowerText "attack".data then
    "Hard".data
  else
    "Medium".data

/-- Per-line body of the `forEach` in `parseOptionsFromAnywhere`
(game.js:2869): prefer the parenthesized form; otherwise accept a plain
numbered line only when its trimmed text is longer than 5 characters. -/
def parseAnywhereLine (line : Str) : Option GameOption :=
  match matchOptionLineWithDiff line with
  | some td => some ⟨td.1, trimStr td.2⟩
  | none =>
    match matchOptionLineNoDiff line with
    | some t => if 5 < t.length then some ⟨t, inferDifficulty t⟩ else none
    | none => none

/-- `parseOptionsFromAnywhere(text)` (game.js:2869). -/
def parseOptionsFromAnywhere (text : Str) : List GameOption :=
  (text.splitOn '\n').filterMap parseAnywhereLine

-- ===== RESPONSE PARSING: STATE UPDATE =====

/-- Numeric value of a non-empty digit run (as `parseInt` reads it). -/
def digitsVal (ds : Str) : Nat :=
  ds.foldl (fun a c => a * 10 + (c.toNat - 48)) 0

/-- Leftmost match of `/([+-]?\d+)/`: first position carrying a digit, or a
sign immediately followed by a digit; the capture is the greedy digit run
(with its sign).  `parseInt` of the capture is the returned integer. -/
def firstSignedInt : Str → Option Int
  | [] => none
  | c :: rest =>
    if c.isDigit then
      some (digitsVal ((c :: rest).takeWhile Char.isDigit))
    else if (c = '+' || c = '-') && (rest.headD 'a').isDigit then
      let n : Int := digitsVal (rest.takeWhile Char.isDigit)
      some (if c = '-' then -n else n)
    else
      firstSignedInt rest

/-- `trimmed.match(/ship/i)` and friends: case-insensitive substring test. -/
def containsCI (haystack needle : Str) : Bool :=
  strIncludes (jsToLower haystack) needle

/-- JavaScript-object write on an association list: overwrite the first
binding of the key, else append a new binding (insertion order kept). -/
def setAssoc : List (Str × Int) → Str → Int → List (Str × Int)
  | [], k, v => [(k, v)]
  | (k', v') :: t, k, v =>
    if k' = k then (k', v) :: t else (k', v') :: setAssoc t k v

/-- Anchored attempt of `/([+-])?\s*(\w+)\s*x\s*(\d+)/i` at the head of `l`
(game.js:2836).  Returns `(item, signedAmount, matchLength)`.  The greedy
`\w+` backtracks from the longest word run until the `\s*x\s*\d+` tail fits
(`tryWordSplit` walks the split point down); the sign defaults to `+`. -/
def tryWordSplit (wordRun : Str) (afterRun : Str) : Nat → Option (Str × Nat)
  | 0 => none
  | k + 1 =>
    let w := wordRun.take (k + 1)
    let r := (wordRun.drop (k + 1)) ++ afterRun
    let sp := r.takeWhile jsIsSpace
    match r.drop sp.length with
    | x :: r2 =>
      if x = 'x' || x = 'X' then
        let sp2 := r2.takeWhile jsIsSpace
        let ds := (r2.drop sp2.length).takeWhile Char.isDigit
        if ds.isEmpty then tryWordSplit wordRun afterRun k
        else some (w, (k + 1) + sp.length + 1 + sp2.length + ds.length)
      else tryWordSplit wordRun afterRun k
    | [] => tryWordSplit wordRun afterRun k

/-- The amount captured by a successful `tryWordSplit`: re-read the digits
after the `x` for the consumed span. -/
def matchInvAt (l : Str) : Option (Str × Int × Nat) :=
  let signLen := if (l.headD 'a') = '+' || (l.headD 'a') = '-' then 1 else 0
  let negative := (l.headD 'a') = '-'
  let l1 := l.drop signLen
  let ws := l1.takeWhile jsIsSpace
  let l2 := l1.drop ws.length
  let wordRun := l2.takeWhile jsIsWordChar
  if wordRun.isEmpty then none
  else
    match tryWordSplit wordRun (l2.drop wordRun.length) wordRun.length with
    | none => none
    | some (w, consumed) =>
      let afterW := l2.drop w.length
      let sp := afterW.takeWhile jsIsSpace
      let afterX := (afterW.drop sp.length).drop 1
      let sp2 := afterX.takeWhile jsIsSpace
      let ds := (afterX.drop sp2.length).takeWhile Char.isDigit
      let amount : Int := digitsVal ds
      some (w, (if negative then -amount else amount), signLen + ws.length + consumed)

/-- Scanning loop of `regex.exec` with the `g` flag: find the leftmost
match, record it, resume after the matched span.  Each step consumes at
least one character, so `fuel = l.length + 1` iterations suffice. -/
def scanInvAux : Nat → Str → List (Str × Int) → List (Str × Int)
  | 0, _, acc => acc
  | _ + 1, [], acc => acc
  | fuel + 1, l@(_ :: t), acc =>
    match matchInvAt l with
    | some (item, amount, consumed) =>
      scanInvAux fuel (l.drop consumed) (setAssoc acc (jsToLower item) amount)
    | none => scanInvAux fuel t acc

/-- `parseInventoryChange(text)` (game.js:2828): collect every
`[+-]? item x amount` match into an object keyed by the lower-cased item. -/
def parseInventoryChange (text : Str) : List (Str × Int) :=
  scanInvAux (text.length + 1) text []

/-- The object built by `parseStateUpdate` (game.js:2798): absent fields are
`undefined`. -/
structure StateUpdates where
  ship : Option Int := none
  fuel : Option Int := none
  distance : Option Int := none
  inventory : Option (List (Str × Int)) := none
deriving DecidableEq, Repr

/-- Per-part body of the `forEach` in `parseStateUpdate`: the four keyword
tests are independent `if`s, each overwriting its field on a hit (the `%?`
of the ship pattern does not affect the capture). -/
def applyStatePart (upd : StateUpdates) (part : Str) : StateUpdates :=
  let trimmed := trimStr part
  let upd :=
    if containsCI trimmed "ship".data then
      match firstSignedInt trimmed with
      | some n => { upd with ship := some n }
      | none => upd
    else upd
  let upd :=
    if containsCI trimmed "fuel".data then
      match firstSignedInt trimmed with
      | some n => { upd with fuel := some n }
      | none => upd
    else upd
  let upd :=
    if containsCI trimmed "distance".data then
      match firstSignedInt trimmed with
      | some n => { upd with distance := some n }
      | none => upd
    else upd
  if containsCI trimmed "inventory".data then
    { upd with inventory := some (parseInventoryChange trimmed) }
  else upd

/-- `parseStateUpdate(updateText)` (game.js:2798): split on `|` and fold the
per-part updates over an initially empty object. -/
def parseStateUpdate (updateText : Str) : StateUpdates :=
  (updateText.splitOn '|').foldl applyStatePart {}

-- ===== RESPONSE PARSING: DEATH DETECTION =====

/-- Words joined by `\s+`, matched as a prefix of `s` (the continuation of
each `\s+` starts with a non-space literal, so the greedy run is exact). -/
def matchSeqAt : List Str → Str → Bool
  | [], _ => true
  | [w], s => w.isPrefixOf s
  | w :: ws, s =>
    w.isPrefixOf s &&
      (let r := s.drop w.length
       let sp := r.takeWhile jsIsSpace
       !sp.isEmpty && matchSeqAt ws (r.drop sp.length))

/-- A first word, `\s+`, then any of the given literal alternatives. -/
def matchWordThenAlts (w : Str) (alts : List Str) (s : Str) : Bool :=
  w.isPrefixOf s &&
    (let r := s.drop w.length
     let sp := r.takeWhile jsIsSpace
     !sp.isEmpty && alts.any (fun a => a.isPrefixOf (r.drop sp.length)))

/-- An unanchored regex `test`: the pattern matches at some position. -/
def testAt (text : Str) (p : Str → Bool) : Bool :=
  text.tails.any p

/-- `detectDeathInNarrative(narrative)` (game.js:2700): lower-case the text
and test the twelve death patterns. -/
def detectDeathInNarrative (narrative : Str) : Bool :=
  let text := jsToLower narrative
  testAt text (matchWordThenAlts "you".data
    ["die".data, "died".data, "have died".data, "are dead".data]) ||
  testAt text (matchSeqAt ["your".data, "death".data]) ||
  strIncludes text "succumb".data || strIncludes text "perish".data ||
  testAt text (fun s =>
    ["life".data, "consciousness".data].any (fun w =>
      matchWordThenAlts w ["fades".data, "slips away".data] s)) ||
  testAt text (fun s =>
    ["last".data, "final".data].any (fun w =>
      matchWordThenAlts w ["breath".data] s)) ||
  testAt text (matchSeqAt ["cease".data, "to".data, "exist".data]) ||
  testAt text (matchSeqAt ["game".data, "over".data]) ||
  testAt text (fun s =>
    "the".data.isPrefixOf s &&
      (let r := s.drop 3
       let sp := r.takeWhile jsIsSpace
       !sp.isEmpty &&
         (let r1 := r.drop sp.length
          "end".data.isPrefixOf r1 &&
            (let r2 := r1.drop 3
             let sp2 := r2.takeWhile jsIsSpace
             !sp2.isEmpty &&
               (let r3 := r2.drop sp2.length
                "come".data.isPrefixOf r3 ||
                  matchSeqAt ["has".data, "come".data] r3))))) ||
  testAt text (matchSeqAt ["no".data, "survivors".data]) ||
  testAt text (matchSeqAt ["you".data, "are".data, "dead".data]) ||
  testAt text (matchSeqAt ["breath".data, "stops".data]) ||
  testAt text (matchSeqAt ["consciousness".data, "fades".data])

-- ===== RESPONSE PARSING: TOP LEVEL =====

/-- Index of the first occurrence of `needle` in `haystack`, matched with
`eq` on characters (case-insensitive for the `i`-flagged regexes). -/
def findIdxBy (eq : Char → Char → Bool) (needle : Str) : Str → Option Nat
  | [] => if needle.isEmpty then some 0 else none
  | c :: t =>
    if (needle.zip (c :: t)).all (fun p => eq p.1 p.2) && needle.length ≤ (c :: t).length
    then some 0
    else (findIdxBy eq needle t).map (· + 1)

/-- Case-insensitive first occurrence (patterns carry the `i` flag). -/
def findIdxCI (needle haystack : Str) : Option Nat :=
  findIdxBy (fun a b => a.toLower = b.toLower) needle haystack

/-- Case-sensitive first occurrence (for the one replace without `i`). -/
def findIdxCS (needle haystack : Str) : Option Nat :=
  findIdxBy (fun a b => a = b) needle haystack

def STATE_MARKER : Str := "[STATE UPDATE]".data
def OPTIONS_MARKER : Str := "[OPTIONS]".data

/-- Steps of `parseGameMasterResponse` handling `[STATE UPDATE]`
(game.js:2734-2742): `text.match(/\[STATE UPDATE\]([\s\S]*?)(?:\[OPTIONS\]|$)/i)`
captures from the first (case-insensitive) state marker to the first
following options marker or the end; on a hit the same span is deleted from
the working text (the lookahead keeps the options marker).  Returns the
parsed update (if any) and the new working text. -/
def extractStateSection (text : Str) : Option StateUpdates × Str :=
  match findIdxCI STATE_MARKER text with
  | none => (none, text)
  | some i =>
    let afterMarker := text.drop (i + STATE_MARKER.length)
    match findIdxCI OPTIONS_MARKER afterMarker with
    | some j =>
      (some (parseStateUpdate (trimStr (afterMarker.take j))),
       text.take i ++ afterMarker.drop j)
    | none =>
      (some (parseStateUpdate (trimStr afterMarker)), text.take i)

/-- Steps of `parseGameMasterResponse` handling `[OPTIONS]`
(game.js:2745-2752): `text.match(/\[OPTIONS\]([\s\S]*?)$/i)` captures from
the first case-insensitive options marker to the end; on a hit the deletion
`text.replace(/\[OPTIONS\][\s\S]*$/, '')` runs — without the `i` flag, so
it cuts at the first case-SENSITIVE occurrence (and changes nothing when
the marker is not upper-case).  Returns the parsed options and the new
working text. -/
def extractOptionsSection (text : Str) : List GameOption × Str :=
  match findIdxCI OPTIONS_MARKER text with
  | none => ([], text)
  | some i =>
    let opts := parseOptions (trimStr (text.drop (i + OPTIONS_MARKER.length)))
    match findIdxCS OPTIONS_MARKER text with
    | some j => (opts, text.take j)
    | none => (opts, text)

/-- The narrative filter of the fallback path (game.js:2764-2769): drop
every line matching `/^\s*\d+\.\s*.+/` (a numbered line with a non-empty
remainder) and re-join with newlines. -/
def filterOptionLines (text : Str) : Str :=
  List.intercalate ['\n'] ((text.splitOn '\n').filter (fun line =>
    !(match matchNumberDot true line with
      | some rest => !rest.isEmpty
      | none => false)))

/-- The fixed default option set (game.js:2789-2793). -/
def defaultOptions : List GameOption :=
  [⟨"Continue exploring".data, "Easy".data⟩,
   ⟨"Look around carefully".data, "Medium".data⟩,
   ⟨"Try something risky".data, "Hard".data⟩]

/-- The record returned by `parseGameMasterResponse` (game.js:2728). -/
structure ParsedResponse where
  narrative : Str
  stateUpdate : Option StateUpdates
  options : List GameOption
  isPlayerDead : Bool
deriving DecidableEq, Repr

/-- `parseGameMasterResponse(text)` (game.js:2723): extract and delete the
state-update block, then the options block; if no options were found, run
the fallback parser over the original text and (when it finds any) strip
every numbered line from the narrative; trim the remainder into the
narrative, detect death there, and fall back to `defaultOptions` when the
option list is still empty. -/
def parseGameMasterResponse (text : Str) : ParsedResponse :=
  let stateUpdate := (extractStateSection text).1
  let text1 := (extractStateSection text).2
  let opts1 := (extractOptionsSection text1).1
  let text2 := (extractOptionsSection text1).2
  let fallback := parseOptionsFromAnywhere text
  let opts2 := if opts1.isEmpty then fallback else opts1
  let text3 :=
    if opts1.isEmpty then
      (if fallback.isEmpty then text2 else filterOptionLines text2)
    else text2
  let narrative := trimStr text3
  { narrative := narrative
    stateUpdate := stateUpdate
    options := if opts2.isEmpty then defaultOptions else opts2
    isPlayerDead := detectDeathInNarrative narrative }

-- ===== GAME STATE =====

/-- `gameState.currentLocation` (game.js:1860). -/
structure Location where
  planetName : Str
  planetType : Str
  systemName : Str
  distanceFromCenter : Int
deriving DecidableEq, Repr

/-- `gameState.ship` (game.js:1867). -/
structure Ship where
  health : Int
  fuel : Int
  warpCapable : Bool
  launchCapable : Bool
deriving DecidableEq, Repr

/-- `gameState.stats` (game.js:1887).  `distanceFromCenter` is absent until
`applyStateUpdates` first writes it, hence an `Option`. -/
structure Stats where
  planetsVisited : Int
  aliensEncountered : Int
  resourcesGathered : Int
  jumpsCompleted : Int
  deathCount : Int
  actionsToken : Int
  distanceFromCenter : Option Int := none
deriving DecidableEq, Repr

/-- A conversation-history role. -/
inductive Role where
  | user
  | assistant
deriving DecidableEq, Repr

/-- One `{ role, content }` entry of `gameState.conversationHistory`. -/
structure ChatMessage where
  role : Role
  content : Str
deriving DecidableEq, Repr

/-- One entry of `gameState.actionHistory` (game.js:3064). -/
structure ActionRecord where
  timestamp : Nat
  action : Str
  result : Str
deriving DecidableEq, Repr

/-- The mutable game state (game.js:1854, `createInitialGameState`), its
inventory an association list in JavaScript-object insertion order.
Persistence metadata (`version`, `saveSlot`, `lastSaved`) is not touched by
the verified operations and is omitted. -/
structure GameState where
  currentLocation : Location
  ship : Ship
  inventory : List (Str × Int)
  conversationHistory : List ChatMessage
  currentNarrative : Str
  currentOptions : List GameOption
  stats : Stats
  skills : Skills
  actionHistory : List ActionRecord
deriving DecidableEq, Repr

/-- `gameState.inventory[item]`: `undefined` when the key is absent. -/
def lookupInv (inv : List (Str × Int)) (k : Str) : Option Int :=
  (inv.find? (fun p => p.1 = k)).map (fun p => p.2)

/-- `GAME_CONSTANTS.maxConversationHistory` (game.js:1708). -/
def maxConversationHistory : Nat := 20

/-- `GAME_CONSTANTS.maxActionHistory` (game.js:1709). -/
def maxActionHistory : Nat := 50

/-- `pruneConversationHistory()` (game.js:2911): keep the last 20 entries
(`slice(-max)`) when over the cap. -/
def pruneConversationHistory (h : List ChatMessage) : List ChatMessage :=
  if h.length > maxConversationHistory then h.drop (h.length - maxConversationHistory)
  else h

/-- Body of the inventory `forEach` of `applyStateUpdates` (game.js:2946):
a missing key is first created at 0; the new value is floored at 0;
a positive delta bumps `stats.resourcesGathered`. -/
def applyInvEntry (st : GameState) (kv : Str × Int) : GameState :=
  let item := kv.1
  let amount := kv.2
  let cur := (lookupInv st.inventory item).getD 0
  let st := { st with inventory := setAssoc st.inventory item (max 0 (cur + amount)) }
  if amount > 0 then
    { st with stats.resourcesGathered := st.stats.resourcesGathered + amount }
  else st

/-- `if (updates.ship !== undefined)` block (game.js:2925): clamp the new
ship health to [0, 100]. -/
def applyShipDelta (st : GameState) (d? : Option Int) : GameState :=
  match d? with
  | some d => { st with ship.health := max 0 (min 100 (st.ship.health + d)) }
  | none => st

/-- `if (updates.fuel !== undefined)` block (game.js:2931): floor at 0. -/
def applyFuelDelta (st : GameState) (d? : Option Int) : GameState :=
  match d? with
  | some d => { st with ship.fuel := max 0 (st.ship.fuel + d) }
  | none => st

/-- `if (updates.distance !== undefined)` block (game.js:2937): floor the
distance at 0 and, on a negative delta, record it in the stats. -/
def applyDistanceDelta (st : GameState) (d? : Option Int) : GameState :=
  match d? with
  | some d =>
    let newDist := max 0 (st.currentLocation.distanceFromCenter + d)
    let st := { st with currentLocation.distanceFromCenter := newDist }
    if d < 0 then { st with stats.distanceFromCenter := some newDist } else st
  | none => st

/-- `if (updates.inventory)` block (game.js:2944): fold the entries. -/
def applyInventoryDeltas (st : GameState) (changes? : Option (List (Str × Int))) : GameState :=
  match changes? with
  | some changes => changes.foldl applyInvEntry st
  | none => st

/-- `applyStateUpdates(updates)` (game.js:2917): a `null` update object is
a no-op; otherwise apply the ship, fuel, distance and inventory blocks in
program order. -/
def applyStateUpdates (st : GameState) (updates : Option StateUpdates) : GameState :=
  match updates with
  | none => st
  | some u =>
    applyInventoryDeltas
      (applyDistanceDelta (applyFuelDelta (applyShipDelta st u.ship) u.fuel) u.distance)
      u.inventory

-- ===== TURN DRIVER =====

/-- `capitalize(str)` (game.js:2544). -/
def capitalize (s : Str) : Str :=
  match s with
  | [] => []
  | c :: t => c.toUpper :: t

/-- Decimal rendering of an integer, as template-literal interpolation. -/
def intToStr (n : Int) : Str := (toString n).data

/-- `formatInventoryText(inventory)` (game.js:2535): positive-count items
rendered `Item xN` and comma-joined, or `Empty` when that string is empty. -/
def formatInventoryText (inv : List (Str × Int)) : Str :=
  let items := List.intercalate ", ".data
    ((inv.filter (fun p => p.2 > 0)).map (fun p =>
      capitalize p.1 ++ " x".data ++ intToStr p.2))
  if items.isEmpty then "Empty".data else items

/-- `formatUserMessage(action, diceRoll)` (game.js:2500): the prompt sent to
the oracle, built from the action, the live state and the dice result;
`concise` is `getSettings().narrativeLength === 'concise'`. -/
def formatUserMessage (st : GameState) (action : Str)
    (diceRoll : Option SkillCheckResult) (concise : Bool) : Str :=
  action ++ "\n\n[CURRENT STATE]\n".data
    ++ "Location: ".data ++ st.currentLocation.planetName
    ++ " (".data ++ st.currentLocation.planetType ++ ")\n".data
    ++ "Ship Health: ".data ++ intToStr st.ship.health ++ "%\n".data
    ++ "Fuel: ".data ++ intToStr st.ship.fuel ++ " units\n".data
    ++ "Inventory: ".data ++ formatInventoryText st.inventory ++ "\n".data
    ++ "Distance from Center: ".data ++ intToStr st.currentLocation.distanceFromCenter
    ++ " LY".data
    ++ (match diceRoll with
        | some dr =>
          "\n\n[DICE ROLL RESULT]\n".data
            ++ "Roll: ".data ++ intToStr (dr.roll : Int)
            ++ (if dr.bonuses ≠ 0 then " + ".data ++ intToStr dr.bonuses else [])
            ++ " = ".data ++ intToStr dr.total ++ " vs DC ".data ++ intToStr dr.dc
            ++ "\nResult: ".data
            ++ (if dr.success then "SUCCESS".data else "FAILURE".data)
            ++ (if dr.criticalSuccess then " (Critical Success!)".data else [])
            ++ (if dr.criticalFailure then " (Critical Failure!)".data else [])
        | none => [])
    ++ (if concise then
          "\n\n[REMINDER: Maximum 300 characters total - this is a HARD LIMIT]".data
        else "\n\n[REMINDER: 1-2 paragraphs maximum]".data)

/-- The JavaScript name of a skill, as `performSkillCheck` records it. -/
def skillName : Skill → Str
  | .combat => "combat".data
  | .technology => "technology".data
  | .survival => "survival".data
  | .exploration => "exploration".data

/-- Inputs of one turn: the chosen action, its difficulty tier (absent for
free-text actions), the points the player spent, the d20 draw and the
wall-clock timestamp `Date.now()` of the action-history entry. -/
structure TurnInput where
  actionText : Str
  difficulty : Option Str
  spentPoints : Int
  roll : Nat
  timestamp : Nat

/-- Outcome of one turn of `processPlayerAction`: the state after the turn,
the error surfaced by the `catch` (if any), whether a debounced auto-save
was scheduled, whether the turn ended in death, and the `isProcessingAction`
flag after the `finally` block. -/
structure TurnResult where
  state : GameState
  errorShown : Option Str
  autoSaveScheduled : Bool
  endedInDeath : Bool
  isProcessingAfter : Bool

/-- The dice phase of `processPlayerAction` (game.js:2998-3018), run before
the oracle call: detect the skill, deduct any spent points, perform the
check with the spent points as bonus, and award margin points immediately. -/
def dicePhase (st : GameState) (inp : TurnInput) : GameState × Option SkillCheckResult :=
  match inp.difficulty with
  | none => (st, none)
  | some diff =>
    let appliedSkill := detectSkillFromAction inp.actionText
    let st :=
      if inp.spentPoints > 0 then
        let sk := st.skills.get appliedSkill
        { st with skills := (st.skills.set appliedSkill
            { sk with points := sk.points - inp.spentPoints }) }
      else st
    let check := performSkillCheck diff inp.spentPoints inp.roll (some (skillName appliedSkill))
    let st := { st with skills := (awardSkillPoints st.skills appliedSkill check).1 }
    (st, some check)

/-- `processPlayerAction(actionText, difficulty, spentPoints)`
(game.js:2971), from the dice phase on, with the oracle transport
externalized: `.error` models `callAI` throwing (network failure,
non-success status, malformed envelope), in which case control falls to the
`catch`/`finally` blocks; `.ok response` is the oracle's reply text.
UI-only effects (DOM writes, sounds, dice animation, modals) have no state
and are not modelled; `scheduleAutoSave` is reported as a flag. -/
def processPlayerAction (st : GameState) (inp : TurnInput) (concise : Bool)
    (oracle : Except Str Str) : TurnResult :=
  let phase := dicePhase st inp
  let st1 := phase.1
  let diceRoll := phase.2
  match oracle with
  | .error e =>
    { state := st1, errorShown := some e, autoSaveScheduled := false,
      endedInDeath := false, isProcessingAfter := false }
  | .ok response =>
    let userMessage := formatUserMessage st1 inp.actionText diceRoll concise
    let newHistory :=
      pruneConversationHistory (st1.conversationHistory ++ [⟨.user, userMessage⟩, ⟨.assistant, response⟩])
    let st2 := { st1 with conversationHistory := newHistory }
    let parsed := parseGameMasterResponse response
    let st3 := applyStateUpdates st2 parsed.stateUpdate
    if parsed.isPlayerDead then
      { state := { st3 with
          stats.deathCount := st3.stats.deathCount + 1
          currentNarrative := parsed.narrative
          currentOptions := [] }
        errorShown := none, autoSaveScheduled := false,
        endedInDeath := true, isProcessingAfter := false }
    else
      let entry : ActionRecord :=
        ⟨inp.timestamp, inp.actionText, parsed.narrative.take 100 ++ "...".data⟩
      let ah := entry :: st3.actionHistory
      let ah := if ah.length > maxActionHistory then ah.dropLast else ah
      { state := { st3 with
          currentNarrative := parsed.narrative
          currentOptions := parsed.options
          actionHistory := ah }
        errorShown := none, autoSaveScheduled := true,
        endedInDeath := false, isProcessingAfter := false }

-- ===== SUPPORTING LEMMAS =====

theorem Skills.get_set_self (sk : Skills) (s : Skill) (v : SkillState) :
    (sk.set s v).get s = v := by
  cases s <;> rfl

theorem Skills.get_set_ne (sk : Skills) (s s' : Skill) (v : SkillState)
    (h : s' ≠ s) : (sk.set s v).get s' = sk.get s' := by
  cases s <;> cases s' <;> simp_all [Skills.set, Skills.get]

theorem setAssoc_nonneg : ∀ (inv : List (Str × Int)) (k : Str) (v : Int),
    0 ≤ v → (∀ p ∈ inv, 0 ≤ p.2) → ∀ p ∈ setAssoc inv k v, 0 ≤ p.2
  | [], k, v, hv, _ => by simpa [setAssoc] using hv
  | (k', v') :: tl, k, v, hv, hinv => by
    by_cases hk : k' = k
    · intro p hp
      simp only [setAssoc, if_pos hk] at hp
      rcases List.mem_cons.mp hp with h | h
      · simpa [h] using hv
      · exact hinv p (List.mem_cons_of_mem _ h)
    · intro p hp
      simp only [setAssoc, if_neg hk] at hp
      rcases List.mem_cons.mp hp with h | h
      · exact h ▸ hinv _ (List.mem_cons_self _ _)
      · exact setAssoc_nonneg tl k v hv (fun q hq => hinv q (List.mem_cons_of_mem _ hq)) p h

theorem lookupInv_setAssoc_self : ∀ (inv : List (Str × Int)) (k : Str) (v : Int),
    lookupInv (setAssoc inv k v) k = some v
  | [], k, v => by simp [setAssoc, lookupInv]
  | (k', v') :: tl, k, v => by
    by_cases hk : k' = k
    · simp [setAssoc, if_pos hk, lookupInv, List.find?_cons, hk]
    · simp only [setAssoc, if_neg hk]
      simpa [lookupInv, List.find?_cons, hk] using lookupInv_setAssoc_self tl k v

theorem lookupInv_setAssoc_ne : ∀ (inv : List (Str × Int)) (k' k : Str) (v : Int),
    k ≠ k' → lookupInv (setAssoc inv k' v) k = lookupInv inv k
  | [], k', k, v, h => by
    have hne : k' ≠ k := fun hh => h hh.symm
    simp [setAssoc, lookupInv, List.find?_cons, hne]
  | (a, b) :: tl, k', k, v, h => by
    by_cases ha : a = k'
    · have hak : ¬ (a = k) := fun hh => h (hh.symm.trans ha)
      simp [setAssoc, if_pos ha, lookupInv, List.find?_cons, hak]
    · simp only [setAssoc, if_neg ha]
      by_cases hak : a = k
      · simp [lookupInv, List.find?_cons, hak]
      · simpa [lookupInv, List.find?_cons, hak] using
          lookupInv_setAssoc_ne tl k' k v h

theorem lookupInv_setAssoc_isSome (inv : List (Str × Int)) (k k' : Str) (v : Int)
    (h : (lookupInv inv k).isSome = true) :
    (lookupInv (setAssoc inv k' v) k).isSome = true := by
  by_cases hkk : k = k'
  · subst hkk; simp [lookupInv_setAssoc_self]
  · rw [lookupInv_setAssoc_ne inv k' k v hkk]; exact h

/-- The sum of the positive deltas of an inventory change list: the exact
amount `applyStateUpdates` adds to `stats.resourcesGathered`. -/
def sumPosDeltas (ds : List (Str × Int)) : Int :=
  (ds.map (fun p => if 0 < p.2 then p.2 else 0)).sum

theorem applyInvEntry_inventory (st : GameState) (kv : Str × Int) :
    (applyInvEntry st kv).inventory
      = setAssoc st.inventory kv.1 (max 0 ((lookupInv st.inventory kv.1).getD 0 + kv.2)) := by
  simp only [applyInvEntry]
  split <;> rfl

theorem applyInvEntry_stats (st : GameState) (kv : Str × Int) :
    (applyInvEntry st kv).stats
      = (if kv.2 > 0 then
          { st.stats with resourcesGathered := st.stats.resourcesGathered + kv.2 }
         else st.stats) := by
  simp only [applyInvEntry]
  split <;> rfl

theorem applyInvEntry_ship (st : GameState) (kv : Str × Int) :
    (applyInvEntry st kv).ship = st.ship := by
  simp only [applyInvEntry]; split <;> rfl

theorem applyInvEntry_frame (st : GameState) (kv : Str × Int) :
    (applyInvEntry st kv).currentLocation = st.currentLocation ∧
    (applyInvEntry st kv).conversationHistory = st.conversationHistory ∧
    (applyInvEntry st kv).currentNarrative = st.currentNarrative ∧
    (applyInvEntry st kv).currentOptions = st.currentOptions ∧
    (applyInvEntry st kv).skills = st.skills ∧
    (applyInvEntry st kv).actionHistory = st.actionHistory := by
  simp only [applyInvEntry]
  split <;> exact ⟨rfl, rfl, rfl, rfl, rfl, rfl⟩

theorem foldInv_ship : ∀ (changes : List (Str × Int)) (st : GameState),
    (changes.foldl applyInvEntry st).ship = st.ship
  | [], _ => rfl
  | kv :: tl, st => by
    rw [List.foldl_cons, foldInv_ship tl, applyInvEntry_ship]

theorem foldInv_frame : ∀ (changes : List (Str × Int)) (st : GameState),
    (changes.foldl applyInvEntry st).currentLocation = st.currentLocation ∧
    (changes.foldl applyInvEntry st).conversationHistory = st.conversationHistory ∧
    (changes.foldl applyInvEntry st).currentNarrative = st.currentNarrative ∧
    (changes.foldl applyInvEntry st).currentOptions = st.currentOptions ∧
    (changes.foldl applyInvEntry st).skills = st.skills ∧
    (changes.foldl applyInvEntry st).actionHistory = st.actionHistory
  | [], _ => ⟨rfl, rfl, rfl, rfl, rfl, rfl⟩
  | kv :: tl, st => by
    have ht := foldInv_frame tl (applyInvEntry st kv)
    have he := applyInvEntry_frame st kv
    rw [List.foldl_cons]
    exact ⟨ht.1.trans he.1, ht.2.1.trans he.2.1, ht.2.2.1.trans he.2.2.1,
           ht.2.2.2.1.trans he.2.2.2.1, ht.2.2.2.2.1.trans he.2.2.2.2.1,
           ht.2.2.2.2.2.trans he.2.2.2.2.2⟩

theorem foldInv_deathCount : ∀ (changes : List (Str × Int)) (st : GameState),
    (changes.foldl applyInvEntry st).stats.deathCount = st.stats.deathCount
  | [], _ => rfl
  | kv :: tl, st => by
    rw [List.foldl_cons, foldInv_deathCount tl, applyInvEntry_stats]
    split <;> rfl

theorem foldInv_resourcesGathered : ∀ (changes : List (Str × Int)) (st : GameState),
    (changes.foldl applyInvEntry st).stats.resourcesGathered
      = st.stats.resourcesGathered + sumPosDeltas changes
  | [], st => by simp [sumPosDeltas]
  | kv :: tl, st => by
    rw [List.foldl_cons, foldInv_resourcesGathered tl, applyInvEntry_stats]
    simp only [sumPosDeltas, List.map_cons, List.sum_cons, gt_iff_lt]
    by_cases h : 0 < kv.2
    · rw [if_pos h, if_pos h]
      show st.stats.resourcesGathered + kv.2 + _ = st.stats.resourcesGathered + (kv.2 + _)
      ring
    · rw [if_neg h, if_neg h]
      show st.stats.resourcesGathered + _ = st.stats.resourcesGathered + (0 + _)
      ring

theorem foldInv_nonneg : ∀ (changes : List (Str × Int)) (st : GameState),
    (∀ p ∈ st.inventory, 0 ≤ p.2) →
    ∀ p ∈ (changes.foldl applyInvEntry st).inventory, 0 ≤ p.2
  | [], _, h => h
  | kv :: tl, st, h => by
    rw [List.foldl_cons]
    refine foldInv_nonneg tl _ ?_
    rw [applyInvEntry_inventory]
    exact setAssoc_nonneg _ _ _ (le_max_left _ _) h

theorem foldInv_lookup_isSome_mono :
    ∀ (changes : List (Str × Int)) (st : GameState) (k : Str),
    (lookupInv st.inventory k).isSome = true →
    (lookupInv (changes.foldl applyInvEntry st).inventory k).isSome = true
  | [], _, _, h => h
  | kv :: tl, st, k, h => by
    rw [List.foldl_cons]
    refine foldInv_lookup_isSome_mono tl _ k ?_
    rw [applyInvEntry_inventory]
    exact lookupInv_setAssoc_isSome _ _ _ _ h

theorem foldInv_mem_isSome :
    ∀ (changes : List (Str × Int)) (st : GameState),
    ∀ kv ∈ changes, (lookupInv (changes.foldl applyInvEntry st).inventory kv.1).isSome = true
  | [], _, kv, hkv => by simp at hkv
  | kv0 :: tl, st, kv, hkv => by
    rw [List.foldl_cons]
    rcases List.mem_cons.mp hkv with h | h
    · subst h
      refine foldInv_lookup_isSome_mono tl _ kv.1 ?_
      rw [applyInvEntry_inventory, lookupInv_setAssoc_self]
      rfl
    · exact foldInv_mem_isSome tl _ kv h

theorem foldInv_congr :
    ∀ (changes : List (Str × Int)) (st st' : GameState),
    st.inventory = st'.inventory → st.stats = st'.stats →
    (changes.foldl applyInvEntry st).inventory = (changes.foldl applyInvEntry st').inventory ∧
    (changes.foldl applyInvEntry st).stats = (changes.foldl applyInvEntry st').stats
  | [], _, _, h1, h2 => ⟨h1, h2⟩
  | kv :: tl, st, st', h1, h2 => by
    rw [List.foldl_cons, List.foldl_cons]
    refine foldInv_congr tl _ _ ?_ ?_
    · rw [applyInvEntry_inventory, applyInvEntry_inventory, h1]
    · rw [applyInvEntry_stats, applyInvEntry_stats, h2]

theorem applyShipDelta_health_bounds (st : GameState) (d? : Option Int)
    (h0 : 0 ≤ st.ship.health) (h1 : st.ship.health ≤ 100) :
    0 ≤ (applyShipDelta st d?).ship.health ∧ (applyShipDelta st d?).ship.health ≤ 100 := by
  cases d? with
  | none => exact ⟨h0, h1⟩
  | some d =>
    constructor
    · exact le_max_left 0 _
    · exact max_le (by norm_num) (min_le_left _ _)

theorem applyShipDelta_frame (st : GameState) (d? : Option Int) :
    (applyShipDelta st d?).ship.fuel = st.ship.fuel ∧
    (applyShipDelta st d?).inventory = st.inventory ∧
    (applyShipDelta st d?).stats = st.stats ∧
    (applyShipDelta st d?).currentLocation = st.currentLocation ∧
    (applyShipDelta st d?).conversationHistory = st.conversationHistory ∧
    (applyShipDelta st d?).currentNarrative = st.currentNarrative ∧
    (applyShipDelta st d?).currentOptions = st.currentOptions ∧
    (applyShipDelta st d?).skills = st.skills ∧
    (applyShipDelta st d?).actionHistory = st.actionHistory := by
  cases d? <;> exact ⟨rfl, rfl, rfl, rfl, rfl, rfl, rfl, rfl, rfl⟩

theorem applyFuelDelta_fuel_nonneg (st : GameState) (d? : Option Int)
    (h : 0 ≤ st.ship.fuel) : 0 ≤ (applyFuelDelta st d?).ship.fuel := by
  cases d? with
  | none => exact h
  | some d => exact le_max_left 0 _

theorem applyFuelDelta_frame (st : GameState) (d? : Option Int) :
    (applyFuelDelta st d?).ship.health = st.ship.health ∧
    (applyFuelDelta st d?).inventory = st.inventory ∧
    (applyFuelDelta st d?).stats = st.stats ∧
    (applyFuelDelta st d?).currentLocation = st.currentLocation ∧
    (applyFuelDelta st d?).conversationHistory = st.conversationHistory ∧
    (applyFuelDelta st d?).currentNarrative = st.currentNarrative ∧
    (applyFuelDelta st d?).currentOptions = st.currentOptions ∧
    (applyFuelDelta st d?).skills = st.skills ∧
    (applyFuelDelta st d?).actionHistory = st.actionHistory := by
  cases d? <;> exact ⟨rfl, rfl, rfl, rfl, rfl, rfl, rfl, rfl, rfl⟩

theorem applyDistanceDelta_frame (st : GameState) (d? : Option Int) :
    (applyDistanceDelta st d?).ship = st.ship ∧
    (applyDistanceDelta st d?).inventory = st.inventory ∧
    (applyDistanceDelta st d?).stats.resourcesGathered = st.stats.resourcesGathered ∧
    (applyDistanceDelta st d?).stats.deathCount = st.stats.deathCount ∧
    (applyDistanceDelta st d?).conversationHistory = st.conversationHistory ∧
    (applyDistanceDelta st d?).currentNarrative = st.currentNarrative ∧
    (applyDistanceDelta st d?).currentOptions = st.currentOptions ∧
    (applyDistanceDelta st d?).skills = st.skills ∧
    (applyDistanceDelta st d?).actionHistory = st.actionHistory := by
  cases d? with
  | none => exact ⟨rfl, rfl, rfl, rfl, rfl, rfl, rfl, rfl, rfl⟩
  | some d =>
    simp only [applyDistanceDelta]
    split <;> exact ⟨rfl, rfl, rfl, rfl, rfl, rfl, rfl, rfl, rfl⟩

/-- The distance step also preserves the whole-stats record up to the
`distanceFromCenter` field; in particular any two states with equal stats
stay equal-stats through it when their locations agree. -/
theorem applyDistanceDelta_stats_congr (st st' : GameState) (d? : Option Int)
    (hloc : st.currentLocation = st'.currentLocation)
    (hst : st.stats = st'.stats) :
    (applyDistanceDelta st d?).stats = (applyDistanceDelta st' d?).stats ∧
    (applyDistanceDelta st d?).currentLocation = (applyDistanceDelta st' d?).currentLocation := by
  cases d? with
  | none => exact ⟨hst, hloc⟩
  | some d =>
    simp only [applyDistanceDelta, hloc, hst]
    split <;> exact ⟨rfl, rfl⟩

theorem applyInventoryDeltas_frame (st : GameState) (cs? : Option (List (Str × Int))) :
    (applyInventoryDeltas st cs?).ship = st.ship ∧
    (applyInventoryDeltas st cs?).currentLocation = st.currentLocation ∧
    (applyInventoryDeltas st cs?).conversationHistory = st.conversationHistory ∧
    (applyInventoryDeltas st cs?).currentNarrative = st.currentNarrative ∧
    (applyInventoryDeltas st cs?).currentOptions = st.currentOptions ∧
    (applyInventoryDeltas st cs?).skills = st.skills ∧
    (applyInventoryDeltas st cs?).actionHistory = st.actionHistory ∧
    (applyInventoryDeltas st cs?).stats.deathCount = st.stats.deathCount := by
  cases cs? with
  | none => exact ⟨rfl, rfl, rfl, rfl, rfl, rfl, rfl, rfl⟩
  | some cs =>
    have hf := foldInv_frame cs st
    exact ⟨foldInv_ship cs st, hf.1, hf.2.1, hf.2.2.1, hf.2.2.2.1,
           hf.2.2.2.2.1, hf.2.2.2.2.2, foldInv_deathCount cs st⟩

theorem applyStateUpdates_frame (st : GameState) (u : Option StateUpdates) :
    (applyStateUpdates st u).conversationHistory = st.conversationHistory ∧
    (applyStateUpdates st u).currentNarrative = st.currentNarrative ∧
    (applyStateUpdates st u).currentOptions = st.currentOptions ∧
    (applyStateUpdates st u).skills = st.skills ∧
    (applyStateUpdates st u).actionHistory = st.actionHistory ∧
    (applyStateUpdates st u).stats.deathCount = st.stats.deathCount := by
  cases u with
  | none => exact ⟨rfl, rfl, rfl, rfl, rfl, rfl⟩
  | some u =>
    simp only [applyStateUpdates]
    obtain ⟨-, -, a3, -, a5, a6, a7, a8, a9⟩ := applyShipDelta_frame st u.ship
    obtain ⟨-, -, b3, -, b5, b6, b7, b8, b9⟩ :=
      applyFuelDelta_frame (applyShipDelta st u.ship) u.fuel
    obtain ⟨-, -, -, c4, c5, c6, c7, c8, c9⟩ := applyDistanceDelta_frame
      (applyFuelDelta (applyShipDelta st u.ship) u.fuel) u.distance
    obtain ⟨-, -, d3, d4, d5, d6, d7, d8⟩ := applyInventoryDeltas_frame
      (applyDistanceDelta (applyFuelDelta (applyShipDelta st u.ship) u.fuel) u.distance)
      u.inventory
    refine ⟨?_, ?_, ?_, ?_, ?_, ?_⟩
    · exact d3.trans (c5.trans (b5.trans a5))
    · exact d4.trans (c6.trans (b6.trans a6))
    · exact d5.trans (c7.trans (b7.trans a7))
    · exact d6.trans (c8.trans (b8.trans a8))
    · exact d7.trans (c9.trans (b9.trans a9))
    · exact d8.trans (c4.trans (congrArg Stats.deathCount (b3.trans a3)))

theorem applyShipDelta_ship_congr (st st' : GameState) (d? : Option Int)
    (h : st.ship = st'.ship) :
    (applyShipDelta st d?).ship = (applyShipDelta st' d?).ship := by
  cases d? <;> simp [applyShipDelta, h]

theorem applyFuelDelta_ship_congr (st st' : GameState) (d? : Option Int)
    (h : st.ship = st'.ship) :
    (applyFuelDelta st d?).ship = (applyFuelDelta st' d?).ship := by
  cases d? <;> simp [applyFuelDelta, h]

/-- `applyStateUpdates` reads and writes only the ship, location, inventory
and stats; two states agreeing there agree on them afterwards (the
per-turn driver exploits this: the history pushes never feed the reducer). -/
theorem applyStateUpdates_congr (st st' : GameState) (u : Option StateUpdates)
    (hship : st.ship = st'.ship) (hinv : st.inventory = st'.inventory)
    (hstats : st.stats = st'.stats) (hloc : st.currentLocation = st'.currentLocation) :
    (applyStateUpdates st u).ship = (applyStateUpdates st' u).ship ∧
    (applyStateUpdates st u).inventory = (applyStateUpdates st' u).inventory := by
  cases u with
  | none => exact ⟨hship, hinv⟩
  | some u =>
    simp only [applyStateUpdates]
    have f1 := applyShipDelta_frame st u.ship
    have f1' := applyShipDelta_frame st' u.ship
    have e1ship := applyShipDelta_ship_congr st st' u.ship hship
    have e1inv : (applyShipDelta st u.ship).inventory = (applyShipDelta st' u.ship).inventory :=
      (f1.2.1.trans hinv).trans f1'.2.1.symm
    have e1stats : (applyShipDelta st u.ship).stats = (applyShipDelta st' u.ship).stats :=
      (f1.2.2.1.trans hstats).trans f1'.2.2.1.symm
    have e1loc : (applyShipDelta st u.ship).currentLocation = (applyShipDelta st' u.ship).currentLocation :=
      (f1.2.2.2.1.trans hloc).trans f1'.2.2.2.1.symm
    have f2 := applyFuelDelta_frame (applyShipDelta st u.ship) u.fuel
    have f2' := applyFuelDelta_frame (applyShipDelta st' u.ship) u.fuel
    have e2ship := applyFuelDelta_ship_congr _ _ u.fuel e1ship
    have e2inv := (f2.2.1.trans e1inv).trans f2'.2.1.symm
    have e2stats := (f2.2.2.1.trans e1stats).trans f2'.2.2.1.symm
    have e2loc := (f2.2.2.2.1.trans e1loc).trans f2'.2.2.2.1.symm
    have f3 := applyDistanceDelta_frame (applyFuelDelta (applyShipDelta st u.ship) u.fuel) u.distance
    have f3' := applyDistanceDelta_frame (applyFuelDelta (applyShipDelta st' u.ship) u.fuel) u.distance
    have e3ship := (f3.1.trans e2ship).trans f3'.1.symm
    have e3inv := (f3.2.1.trans e2inv).trans f3'.2.1.symm
    have e3sc := applyDistanceDelta_stats_congr _ _ u.distance e2loc e2stats
    cases hu : u.inventory with
    | none => exact ⟨e3ship, e3inv⟩
    | some cs =>
      have hc := foldInv_congr cs _ _ e3inv e3sc.1
      have g := foldInv_ship cs (applyDistanceDelta (applyFuelDelta (applyShipDelta st u.ship) u.fuel) u.distance)
      have g' := foldInv_ship cs (applyDistanceDelta (applyFuelDelta (applyShipDelta st' u.ship) u.fuel) u.distance)
      exact ⟨(g.trans e3ship).trans g'.symm, hc.1⟩

theorem dicePhase_frame (st : GameState) (inp : TurnInput) :
    (dicePhase st inp).1.ship = st.ship ∧
    (dicePhase st inp).1.inventory = st.inventory ∧
    (dicePhase st inp).1.stats = st.stats ∧
    (dicePhase st inp).1.currentLocation = st.currentLocation ∧
    (dicePhase st inp).1.conversationHistory = st.conversationHistory ∧
    (dicePhase st inp).1.currentNarrative = st.currentNarrative ∧
    (dicePhase st inp).1.currentOptions = st.currentOptions ∧
    (dicePhase st inp).1.actionHistory = st.actionHistory ∧
    (inp.difficulty = none → (dicePhase st inp).1 = st) := by
  cases hd : inp.difficulty with
  | none => simp [dicePhase, hd]
  | some diff =>
    simp only [dicePhase, hd]
    split <;>
      exact ⟨rfl, rfl, rfl, rfl, rfl, rfl, rfl, rfl, fun h => by simp at h⟩

theorem lookupDC_eq (d : Str) :
    lookupDC d =
      (if jsToLower d = "easy".data then 6
       else if jsToLower d = "medium".data then 9
       else if jsToLower d = "hard".data then 13
       else if jsToLower d = "very hard".data then 17
       else 12) := by
  by_cases h1 : jsToLower d = "easy".data
  · simp [lookupDC, DIFFICULTY_DC, List.find?_cons, h1]
  · by_cases h2 : jsToLower d = "medium".data
    · simp [lookupDC, DIFFICULTY_DC, List.find?_cons, h1, h2]
    · by_cases h3 : jsToLower d = "hard".data
      · simp [lookupDC, DIFFICULTY_DC, List.find?_cons, h1, h2, h3]
      · by_cases h4 : jsToLower d = "very hard".data
        · simp [lookupDC, DIFFICULTY_DC, List.find?_cons, h1, h2, h3, h4]
        · simp [lookupDC, DIFFICULTY_DC, List.find?_cons, h1, h2, h3, h4]

-- ===== CLAIM THEOREMS =====

/-- C4 (counterexample): the claim fixes the four-tier table at easy 8,
medium 12, hard 16, very hard 20; but the cited table (game.js:1714) maps
`easy` to 6, so a skill check against the `easy` tier does not use
difficulty class 8. -/
theorem performSkillCheck_easy_dc_not_8 :
    ¬ ((performSkillCheck "easy".data 0 10 none).dc = 8) := by decide

/-- C4 (amended): `total = roll + bonus`; the difficulty class comes from
the four-tier table easy 6 / medium 9 / hard 13 / very hard 17 (matched
case-insensitively), defaulting to 12 — the former medium threshold, not
the current one — when the tier is unrecognized; `success` holds iff
`total >= dc`; the criticals depend on the raw roll only (20 and 1),
independent of the bonus and of success. -/
theorem performSkillCheck_spec (d : Str) (b : Int) (roll : Nat)
    (_hlo : 1 ≤ roll) (_hhi : roll ≤ 20) :
    (performSkillCheck d b roll none).total = (roll : Int) + b ∧
    (performSkillCheck d b roll none).dc =
      (if jsToLower d = "easy".data then 6
       else if jsToLower d = "medium".data then 9
       else if jsToLower d = "hard".data then 13
       else if jsToLower d = "very hard".data then 17
       else 12) ∧
    ((performSkillCheck d b roll none).success = true ↔
      (performSkillCheck d b roll none).dc ≤ (performSkillCheck d b roll none).total) ∧
    ((performSkillCheck d b roll none).criticalSuccess = true ↔ roll = 20) ∧
    ((performSkillCheck d b roll none).criticalFailure = true ↔ roll = 1) ∧
    (∀ b' : Int,
      (performSkillCheck d b' roll none).criticalSuccess
        = (performSkillCheck d b roll none).criticalSuccess ∧
      (performSkillCheck d b' roll none).criticalFailure
        = (performSkillCheck d b roll none).criticalFailure) := by
  refine ⟨rfl, lookupDC_eq d, ?_, ?_, ?_, fun b' => ⟨rfl, rfl⟩⟩
  · simp [performSkillCheck, ge_iff_le]
  · simp [performSkillCheck]
  · simp [performSkillCheck]

/-- C4 (witness): a natural 20 on an `Easy` check with bonus 3. -/
theorem performSkillCheck_spec_witness :
    (performSkillCheck "Easy".data 3 20 none).dc = 6 ∧
    (performSkillCheck "Easy".data 3 20 none).criticalSuccess = true := by
  have h := performSkillCheck_spec "Easy".data 3 20 (by decide) (by decide)
  exact ⟨h.2.1.trans (by decide), h.2.2.2.1.mpr rfl⟩

/-- C6: `awardSkillPoints` adds to the checked skill's balance exactly on a
successful check, by `max(1, total - dc)`; other skills are untouched; a
failed check changes nothing and reports no award. -/
theorem awardSkillPoints_spec (skills : Skills) (s : Skill) (check : SkillCheckResult) :
    (check.success = true →
      ((awardSkillPoints skills s check).1.get s).points
        = (skills.get s).points + max 1 (check.total - check.dc) ∧
      (∀ s', s' ≠ s → (awardSkillPoints skills s check).1.get s' = skills.get s') ∧
      ((awardSkillPoints skills s check).2.map AwardInfo.pointsEarned)
        = some (max 1 (check.total - check.dc))) ∧
    (check.success = false →
      (awardSkillPoints skills s check).1 = skills ∧
      (awardSkillPoints skills s check).2 = none) := by
  constructor
  · intro hs
    refine ⟨?_, ?_, ?_⟩
    · simp [awardSkillPoints, hs, Skills.get_set_self]
    · intro s' hne
      simp [awardSkillPoints, hs, Skills.get_set_ne skills s s' _ hne]
    · simp [awardSkillPoints, hs]
  · intro hs
    constructor <;> simp [awardSkillPoints, hs]

def awardWitSkills : Skills := ⟨⟨1, 0, 0⟩, ⟨1, 0, 0⟩, ⟨1, 0, 10⟩, ⟨1, 0, 0⟩⟩

def awardWitCheck15 : SkillCheckResult :=
  ⟨10, 5, 15, 12, true, false, false, "medium".data, none⟩

def awardWitCheck9 : SkillCheckResult :=
  ⟨1, 8, 9, 8, true, false, true, "easy".data, none⟩

def awardWitCheckFail : SkillCheckResult :=
  ⟨1, 0, 1, 12, false, false, true, "medium".data, none⟩

/-- C6 (witness): a success at total 15 / DC 12 awards exactly 3 points, a
success at total 9 / DC 8 awards exactly 1, a failure awards none. -/
theorem awardSkillPoints_spec_witness :
    ((awardSkillPoints awardWitSkills .exploration awardWitCheck15).1.get .exploration).points = 13 ∧
    ((awardSkillPoints awardWitSkills .exploration awardWitCheck9).1.get .exploration).points = 11 ∧
    (awardSkillPoints awardWitSkills .exploration awardWitCheckFail).1 = awardWitSkills ∧
    (awardSkillPoints awardWitSkills .exploration awardWitCheckFail).2 = none := by
  refine ⟨?_, ?_, ?_, ?_⟩
  · rw [((awardSkillPoints_spec awardWitSkills .exploration awardWitCheck15).1 rfl).1]
    decide
  · rw [((awardSkillPoints_spec awardWitSkills .exploration awardWitCheck9).1 rfl).1]
    decide
  · exact ((awardSkillPoints_spec awardWitSkills .exploration awardWitCheckFail).2 rfl).1
  · exact ((awardSkillPoints_spec awardWitSkills .exploration awardWitCheckFail).2 rfl).2

/-- C8: skill classification is a pure function of the text (two calls on
identical text agree); the four keyword categories are scanned in the fixed
precedence order combat, technology, survival, exploration, so any text
with a combat keyword classifies as combat whatever else it contains; with
no matching keyword the default is exploration. -/
theorem detectSkillFromAction_spec (t : Str) :
    detectSkillFromAction t = detectSkillFromAction t ∧
    (textIncludesAny (jsToLower t) combatKeywords = true →
      detectSkillFromAction t = .combat) ∧
    (textIncludesAny (jsToLower t) combatKeywords = false →
      textIncludesAny (jsToLower t) technologyKeywords = true →
      detectSkillFromAction t = .technology) ∧
    (textIncludesAny (jsToLower t) combatKeywords = false →
      textIncludesAny (jsToLower t) technologyKeywords = false →
      textIncludesAny (jsToLower t) survivalKeywords = true →
      detectSkillFromAction t = .survival) ∧
    (textIncludesAny (jsToLower t) combatKeywords = false →
      textIncludesAny (jsToLower t) technologyKeywords = false →
      textIncludesAny (jsToLower t) survivalKeywords = false →
      detectSkillFromAction t = .exploration) := by
  refine ⟨rfl, ?_, ?_, ?_, ?_⟩
  · intro h1; simp [detectSkillFromAction, h1]
  · intro h1 h2; simp [detectSkillFromAction, h1, h2]
  · intro h1 h2 h3; simp [detectSkillFromAction, h1, h2, h3]
  · intro h1 h2 h3
    simp only [detectSkillFromAction, h1, h2, h3, Bool.false_eq_true, if_false]
    split <;> rfl

/-- C8 (witness): "attack and explore" carries both a combat and an
exploration keyword and classifies as combat; "hmm" matches nothing and
defaults to exploration. -/
theorem detectSkillFromAction_spec_witness :
    detectSkillFromAction "attack and explore".data = .combat ∧
    detectSkillFromAction "hmm".data = .exploration := by
  constructor
  · exact (detectSkillFromAction_spec "attack and explore".data).2.1 (by decide)
  · exact (detectSkillFromAction_spec "hmm".data).2.2.2.2 (by decide) (by decide) (by decide)

/-- C9: in the fallback parser, a numbered line with a parenthetical
difficulty always yields an option; a numbered line without one yields an
option exactly when its trimmed text is longer than 5 characters (and no
numbered-line match yields nothing). -/
theorem parseAnywhereLine_spec (line : Str) :
    ((matchOptionLineWithDiff line).isSome = true →
      (parseAnywhereLine line).isSome = true) ∧
    (matchOptionLineWithDiff line = none →
      ∀ t, matchOptionLineNoDiff line = some t →
        ((parseAnywhereLine line).isSome = true ↔ 5 < t.length)) ∧
    (matchOptionLineWithDiff line = none → matchOptionLineNoDiff line = none →
      parseAnywhereLine line = none) := by
  cases hw : matchOptionLineWithDiff line with
  | some td => simp [parseAnywhereLine, hw]
  | none =>
    cases hn : matchOptionLineNoDiff line with
    | some t0 =>
      refine ⟨by simp, ?_, by simp⟩
      intro _ t ht
      have htt : t = t0 := (Option.some.inj ht).symm
      subst htt
      by_cases h5 : 5 < t.length <;> simp [parseAnywhereLine, hw, hn, h5]
    | none => simp [parseAnywhereLine, hw, hn]

/-- C9 (witness): "1. abcde" (trimmed text of 5 characters, no
parenthetical) is dropped; "1. abcdef" (6 characters) is kept; "1. a (Easy)"
(1 character but with a parenthetical) is kept. -/
theorem parseAnywhereLine_spec_witness :
    parseAnywhereLine "1. abcde".data = none ∧
    (parseAnywhereLine "1. abcdef".data).isSome = true ∧
    (parseAnywhereLine "1. a (Easy)".data).isSome = true := by
  refine ⟨?_, ?_, ?_⟩
  · have h := (parseAnywhereLine_spec "1. abcde".data).2.1 (by decide)
      "abcde".data (by decide)
    have h' : ¬ ((parseAnywhereLine "1. abcde".data).isSome = true) := by
      rw [h]; decide
    exact Option.not_isSome_iff_eq_none.mp h'
  · exact ((parseAnywhereLine_spec "1. abcdef".data).2.1 (by decide)
      "abcdef".data (by decide)).mpr (by decide)
  · exact (parseAnywhereLine_spec "1. a (Easy)".data).1 (by decide)

/-- C1: for every input text the parser returns a non-empty option list,
and when both the delimited extraction and the numbered-line fallback come
up empty it returns exactly the fixed three-item default set. -/
theorem parseGameMasterResponse_options_total (text : Str) :
    (parseGameMasterResponse text).options ≠ [] ∧
    ((extractOptionsSection (extractStateSection text).2).1 = [] →
      parseOptionsFromAnywhere text = [] →
      (parseGameMasterResponse text).options = defaultOptions) := by
  constructor
  · by_cases h1 : (extractOptionsSection (extractStateSection text).2).1 = []
    · by_cases h2 : parseOptionsFromAnywhere text = []
      · simp [parseGameMasterResponse, List.isEmpty_iff, h1, h2, defaultOptions]
      · simp [parseGameMasterResponse, List.isEmpty_iff, h1, h2]
    · simp [parseGameMasterResponse, List.isEmpty_iff, h1]
  · intro h1 h2
    simp [parseGameMasterResponse, List.isEmpty_iff, h1, h2]

/-- C1 (witness): the empty response yields no delimited options and no
fallback options, and the parser substitutes the default set. -/
theorem parseGameMasterResponse_options_total_witness :
    (parseGameMasterResponse [] ).options = defaultOptions ∧
    (parseGameMasterResponse "hello".data).options ≠ [] := by
  constructor
  · exact (parseGameMasterResponse_options_total []).2 (by decide) (by decide)
  · exact (parseGameMasterResponse_options_total "hello".data).1

def c5Input : Str := "Story.\n[options]\n1. Go north (Easy)".data

/-- C5 (code bug): on a response whose options marker is lower-case
`[options]`, the case-insensitive match still parses the numbered options,
but `text.replace(/\[OPTIONS\][\s\S]*$/, '')` (game.js:2751) lacks the `i`
flag, so the block is not excised and the narrative retains both the marker
and the option line — contradicting the claimed case-insensitive excision. -/
theorem parseGameMasterResponse_lowercase_options_not_excised :
    (parseGameMasterResponse c5Input).options = [⟨"Go north".data, "Easy".data⟩] ∧
    strIncludes (parseGameMasterResponse c5Input).narrative "[options]".data = true ∧
    strIncludes (parseGameMasterResponse c5Input).narrative "1. Go north (Easy)".data = true := by
  refine ⟨by decide, by decide, by decide⟩

/-- C2: from any state with ship health in [0,100], non-negative fuel and
non-negative inventory, any parsed delta leaves health in [0,100], fuel and
every inventory count non-negative; every delta key exists afterwards (a
missing key is created at zero before its delta, witnessed exactly by the
singleton case); and `stats.resourcesGathered` grows by exactly the sum of
the positive inventory deltas (negative deltas never decrement it). -/
theorem applyStateUpdates_invariants (st : GameState) (u : StateUpdates)
    (hH0 : 0 ≤ st.ship.health) (hH1 : st.ship.health ≤ 100)
    (hF : 0 ≤ st.ship.fuel)
    (hI : ∀ p ∈ st.inventory, 0 ≤ p.2) :
    (0 ≤ (applyStateUpdates st (some u)).ship.health ∧
      (applyStateUpdates st (some u)).ship.health ≤ 100) ∧
    0 ≤ (applyStateUpdates st (some u)).ship.fuel ∧
    (∀ p ∈ (applyStateUpdates st (some u)).inventory, 0 ≤ p.2) ∧
    (∀ ds, u.inventory = some ds →
      (∀ kv ∈ ds,
        (lookupInv (applyStateUpdates st (some u)).inventory kv.1).isSome = true) ∧
      (applyStateUpdates st (some u)).stats.resourcesGathered
        = st.stats.resourcesGathered + sumPosDeltas ds) ∧
    (∀ k a, u.inventory = some [(k, a)] → lookupInv st.inventory k = none →
      lookupInv (applyStateUpdates st (some u)).inventory k = some (max 0 (0 + a))) := by
  obtain ⟨f1fuel, f1inv, f1stats, f1loc, -, -, -, -, -⟩ := applyShipDelta_frame st u.ship
  obtain ⟨f2health, f2inv, f2stats, f2loc, -, -, -, -, -⟩ :=
    applyFuelDelta_frame (applyShipDelta st u.ship) u.fuel
  obtain ⟨f3ship, f3inv, f3rg, -, -, -, -, -, -⟩ := applyDistanceDelta_frame
    (applyFuelDelta (applyShipDelta st u.ship) u.fuel) u.distance
  obtain ⟨f4ship, -, -, -, -, -, -, -⟩ := applyInventoryDeltas_frame
    (applyDistanceDelta (applyFuelDelta (applyShipDelta st u.ship) u.fuel) u.distance)
    u.inventory
  have hbounds := applyShipDelta_health_bounds st u.ship hH0 hH1
  have hfuel :=
    applyFuelDelta_fuel_nonneg (applyShipDelta st u.ship) u.fuel (f1fuel ▸ hF)
  have hs3inv :
      (applyDistanceDelta (applyFuelDelta (applyShipDelta st u.ship) u.fuel)
        u.distance).inventory = st.inventory :=
    f3inv.trans (f2inv.trans f1inv)
  have hs3rg :
      (applyDistanceDelta (applyFuelDelta (applyShipDelta st u.ship) u.fuel)
        u.distance).stats.resourcesGathered = st.stats.resourcesGathered :=
    f3rg.trans (congrArg Stats.resourcesGathered (f2stats.trans f1stats))
  refine ⟨?_, ?_, ?_, ?_, ?_⟩
  · show 0 ≤ (applyInventoryDeltas _ u.inventory).ship.health ∧
      (applyInventoryDeltas _ u.inventory).ship.health ≤ 100
    rw [f4ship, f3ship]
    exact ⟨f2health ▸ hbounds.1, f2health ▸ hbounds.2⟩
  · show 0 ≤ (applyInventoryDeltas _ u.inventory).ship.fuel
    rw [f4ship, f3ship]
    exact hfuel
  · show ∀ p ∈ (applyInventoryDeltas _ u.inventory).inventory, 0 ≤ p.2
    cases hu : u.inventory with
    | none =>
      simp only [applyInventoryDeltas]
      exact hs3inv ▸ hI
    | some ds =>
      simp only [applyInventoryDeltas]
      exact foldInv_nonneg ds _ (hs3inv ▸ hI)
  · intro ds hds
    show (∀ kv ∈ ds,
        (lookupInv (applyInventoryDeltas _ u.inventory).inventory kv.1).isSome = true) ∧
      (applyInventoryDeltas _ u.inventory).stats.resourcesGathered
        = st.stats.resourcesGathered + sumPosDeltas ds
    rw [hds]
    simp only [applyInventoryDeltas]
    exact ⟨foldInv_mem_isSome ds _, (foldInv_resourcesGathered ds _).trans (by rw [hs3rg])⟩
  · intro k a hds hnone
    show lookupInv (applyInventoryDeltas _ u.inventory).inventory k = some (max 0 (0 + a))
    rw [hds]
    simp only [applyInventoryDeltas, List.foldl_cons, List.foldl_nil]
    rw [applyInvEntry_inventory, lookupInv_setAssoc_self, hs3inv, hnone]
    rfl

def invariantWitState : GameState :=
  ⟨⟨"Unknown".data, "unknown".data, "Unknown".data, 715342⟩,
   ⟨15, 3, false, false⟩,
   [("carbon".data, 2), ("iron".data, 0)],
   [], [], [],
   ⟨1, 0, 0, 0, 0, 0, none⟩,
   ⟨⟨1, 0, 0⟩, ⟨1, 0, 0⟩, ⟨2, 0, 0⟩, ⟨1, 0, 0⟩⟩,
   []⟩

def invariantWitUpdate : StateUpdates :=
  { ship := some (-200), fuel := some (-50), distance := none,
    inventory := some [("iron".data, 5), ("carbon".data, -7), ("zinc".data, 4)] }

/-- C2 (witness): a delta driving health and fuel far negative and an
inventory delta creating a key, flooring another at 0 and gathering 9. -/
theorem applyStateUpdates_invariants_witness :
    (0 ≤ (applyStateUpdates invariantWitState (some invariantWitUpdate)).ship.health ∧
      (applyStateUpdates invariantWitState (some invariantWitUpdate)).ship.health ≤ 100) ∧
    0 ≤ (applyStateUpdates invariantWitState (some invariantWitUpdate)).ship.fuel ∧
    (∀ p ∈ (applyStateUpdates invariantWitState (some invariantWitUpdate)).inventory, 0 ≤ p.2) ∧
    (applyStateUpdates invariantWitState (some invariantWitUpdate)).stats.resourcesGathered
      = invariantWitState.stats.resourcesGathered
        + sumPosDeltas [("iron".data, 5), ("carbon".data, -7), ("zinc".data, 4)] := by
  have h := applyStateUpdates_invariants invariantWitState invariantWitUpdate
    (by decide) (by decide) (by decide) (by decide)
  exact ⟨h.1, h.2.1, h.2.2.1, (h.2.2.2.1 _ rfl).2⟩

/-- C3 (counterexample): a turn with a difficulty tier deducts spent points
and awards margin points to the detected skill *before* the oracle call, so
when the oracle then fails with a transport error the state is *not* left
unmodified — the skill balances differ. -/
theorem processPlayerAction_oracle_error_counterexample :
    (processPlayerAction invariantWitState ⟨"go".data, some "easy".data, 2, 10, 7⟩ false
        (.error "Network error".data)).state ≠ invariantWitState := by
  decide

/-- C3 (amended): on an oracle transport error the error is surfaced, the
turn aborts to idle with no auto-save and no death, and every state field
except the skill balances (already adjusted by the pre-call dice phase) is
left unmodified; a turn without a difficulty tier leaves the whole state
unmodified. -/
theorem processPlayerAction_oracle_error_frame (st : GameState) (inp : TurnInput)
    (concise : Bool) (e : Str) :
    (processPlayerAction st inp concise (.error e)).errorShown = some e ∧
    (processPlayerAction st inp concise (.error e)).autoSaveScheduled = false ∧
    (processPlayerAction st inp concise (.error e)).isProcessingAfter = false ∧
    (processPlayerAction st inp concise (.error e)).endedInDeath = false ∧
    (processPlayerAction st inp concise (.error e)).state.conversationHistory
      = st.conversationHistory ∧
    (processPlayerAction st inp concise (.error e)).state.currentNarrative
      = st.currentNarrative ∧
    (processPlayerAction st inp concise (.error e)).state.currentOptions
      = st.currentOptions ∧
    (processPlayerAction st inp concise (.error e)).state.actionHistory
      = st.actionHistory ∧
    (processPlayerAction st inp concise (.error e)).state.ship = st.ship ∧
    (processPlayerAction st inp concise (.error e)).state.inventory = st.inventory ∧
    (processPlayerAction st inp concise (.error e)).state.stats = st.stats ∧
    (processPlayerAction st inp concise (.error e)).state.currentLocation
      = st.currentLocation ∧
    (inp.difficulty = none →
      (processPlayerAction st inp concise (.error e)).state = st) := by
  obtain ⟨h1, h2, h3, h4, h5, h6, h7, h8, h9⟩ := dicePhase_frame st inp
  simp only [processPlayerAction]
  exact ⟨True.intro, True.intro, True.intro, True.intro,
    h5, h6, h7, h8, h1, h2, h3, h4, fun hd => h9 hd⟩

/-- C3 (witness): a free-text turn (no difficulty) hitting a network error
leaves the state exactly as it was and surfaces the error. -/
theorem processPlayerAction_oracle_error_frame_witness :
    (processPlayerAction invariantWitState ⟨"wait".data, none, 0, 0, 7⟩ false
        (.error "err".data)).state = invariantWitState ∧
    (processPlayerAction invariantWitState ⟨"wait".data, none, 0, 0, 7⟩ false
        (.error "err".data)).errorShown = some "err".data := by
  obtain ⟨he, -, -, -, -, -, -, -, -, -, -, -, hnone⟩ :=
    processPlayerAction_oracle_error_frame invariantWitState
      ⟨"wait".data, none, 0, 0, 7⟩ false "err".data
  exact ⟨hnone rfl, he⟩

/-- C7: a turn whose parsed response detects death clears the current
options, increments the death counter by exactly one, leaves the parsed
narrative populated for display, and ends in the dead state. -/
theorem processPlayerAction_death_turn (st : GameState) (inp : TurnInput)
    (concise : Bool) (response : Str)
    (hdead : (parseGameMasterResponse response).isPlayerDead = true) :
    (processPlayerAction st inp concise (.ok response)).state.currentOptions = [] ∧
    (processPlayerAction st inp concise (.ok response)).state.stats.deathCount
      = st.stats.deathCount + 1 ∧
    (processPlayerAction st inp concise (.ok response)).state.currentNarrative
      = (parseGameMasterResponse response).narrative ∧
    (processPlayerAction st inp concise (.ok response)).endedInDeath = true := by
  obtain ⟨-, -, dstats, -, -, -, -, -, -⟩ := dicePhase_frame st inp
  simp only [processPlayerAction, hdead, reduceIte]
  refine ⟨True.intro, ?_, True.intro, True.intro⟩
  exact congrArg (· + 1)
    (((applyStateUpdates_frame _ _).2.2.2.2.2).trans (congrArg Stats.deathCount dstats))

/-- C7 (witness): a concrete dead turn from the sample state. -/
theorem processPlayerAction_death_turn_witness :
    (processPlayerAction invariantWitState ⟨"wait".data, none, 0, 0, 7⟩ false
        (.ok "You are dead.".data)).state.currentOptions = [] ∧
    (processPlayerAction invariantWitState ⟨"wait".data, none, 0, 0, 7⟩ false
        (.ok "You are dead.".data)).state.stats.deathCount = 1 ∧
    (processPlayerAction invariantWitState ⟨"wait".data, none, 0, 0, 7⟩ false
        (.ok "You are dead.".data)).state.currentNarrative = "You are dead.".data := by
  obtain ⟨h1, h2, h3, -⟩ := processPlayerAction_death_turn invariantWitState
    ⟨"wait".data, none, 0, 0, 7⟩ false "You are dead.".data (by decide)
  refine ⟨h1, ?_, h3.trans (by decide)⟩
  rw [h2]; decide

/-- C10: a death turn returns before the action-history push and the
auto-save scheduling — `actionHistory` is exactly as before the turn and no
save is queued — even though the conversation-history append and the parsed
state delta of the response were already applied. -/
theorem processPlayerAction_death_turn_frame (st : GameState) (inp : TurnInput)
    (concise : Bool) (response : Str)
    (hdead : (parseGameMasterResponse response).isPlayerDead = true) :
    (processPlayerAction st inp concise (.ok response)).autoSaveScheduled = false ∧
    (processPlayerAction st inp concise (.ok response)).state.actionHistory
      = st.actionHistory ∧
    (∃ userMsg,
      (processPlayerAction st inp concise (.ok response)).state.conversationHistory
        = pruneConversationHistory (st.conversationHistory ++ [⟨.user, userMsg⟩, ⟨.assistant, response⟩])) ∧
    (processPlayerAction st inp concise (.ok response)).state.inventory
      = (applyStateUpdates st (parseGameMasterResponse response).stateUpdate).inventory ∧
    (processPlayerAction st inp concise (.ok response)).state.ship
      = (applyStateUpdates st (parseGameMasterResponse response).stateUpdate).ship := by
  obtain ⟨dship, dinv, dstats, dloc, dhist, -, -, dah, -⟩ := dicePhase_frame st inp
  have hcongr := fun (h : List ChatMessage) =>
    applyStateUpdates_congr { (dicePhase st inp).1 with conversationHistory := h } st
      (parseGameMasterResponse response).stateUpdate dship dinv dstats dloc
  simp only [processPlayerAction, hdead, reduceIte]
  refine ⟨True.intro, ?_, ?_, ?_, ?_⟩
  · exact ((applyStateUpdates_frame _ _).2.2.2.2.1).trans dah
  · refine ⟨formatUserMessage (dicePhase st inp).1 inp.actionText (dicePhase st inp).2 concise, ?_⟩
    refine ((applyStateUpdates_frame _ _).1).trans ?_
    show pruneConversationHistory ((dicePhase st inp).1.conversationHistory ++ _) = _
    rw [dhist]
  · exact (hcongr _).2
  · exact (hcongr _).1

/-- C10 (witness): the concrete dead turn keeps the empty action history,
schedules no save, and has appended the two conversation entries. -/
theorem processPlayerAction_death_turn_frame_witness :
    (processPlayerAction invariantWitState ⟨"wait".data, none, 0, 0, 7⟩ false
        (.ok "You are dead.".data)).autoSaveScheduled = false ∧
    (processPlayerAction invariantWitState ⟨"wait".data, none, 0, 0, 7⟩ false
        (.ok "You are dead.".data)).state.actionHistory = [] ∧
    (∃ userMsg,
      (processPlayerAction invariantWitState ⟨"wait".data, none, 0, 0, 7⟩ false
          (.ok "You are dead.".data)).state.conversationHistory
        = pruneConversationHistory (invariantWitState.conversationHistory
            ++ [⟨.user, userMsg⟩, ⟨.assistant, "You are dead.".data⟩])) := by
  obtain ⟨h1, h2, h3, -, -⟩ := processPlayerAction_death_turn_frame invariantWitState
    ⟨"wait".data, none, 0, 0, 7⟩ false "You are dead.".data (by decide)
  exact ⟨h1, h2, h3⟩
